import Mathlib

/-!
Shallow embedding of the standup tracker's core store module
(`api/_lib/store.ts`): the status calculator, the standup document
lifecycle (`getOrCreateStandup`), the update/conflict protocol
(`updateStandupEntry`) and the team self-healing (`ensureTeamForViewer`),
together with theorems settling the specification claims about them.

Blob storage is modelled as association lists from full key strings to
typed documents; `putJson` is full-document overwrite, `findBlob`+read is
lookup.  Wall-clock time (`nowIso()`) and id generation (`nanoid()`) are
threaded as explicit parameters.  JS string fields that the source only
tests for truthiness are plain `String`s with `""` for absent; fields the
source distinguishes as possibly `undefined` structurally are `Option`s.
-/

namespace Standup

/-- JS `a || b` on strings: `""` is falsy. -/
def jsOrStr (a b : String) : String := if a = "" then b else a

/-- Roles a user can hold on a team (source `UserRole`). -/
inductive UserRole where
  | manager
  | member
deriving DecidableEq

/-- One membership entry of a user (source `UserMembership`). -/
structure UserMembership where
  teamId : String
  role : UserRole
  joinedAt : String
deriving DecidableEq

/-- A user record (source `User`).  `teamId`/`activeTeamId` use `""` for
absent (the source only tests them for truthiness); `role` and
`memberships` keep `Option` because the source distinguishes the
undefined case structurally (`Array.isArray`, `|| 'member'`). -/
structure User where
  id : String
  email : String
  name : String
  teamId : String
  role : Option UserRole
  memberships : Option (List UserMembership)
  activeTeamId : String
  createdAt : String
  updatedAt : String
deriving DecidableEq

/-- A team record (source `Team`). -/
structure Team where
  id : String
  name : String
  standupCutoffTime : String
  memberUserIds : List String
  createdByUserId : String
  teamCode : String
  createdAt : String
  updatedAt : String
deriving DecidableEq

/-- Completion status of one row (source `StandupStatus`).  The source
values are the strings 'prepared' / 'partial' / 'missing'; the middle
one is named `partly` here. -/
inductive StandupStatus where
  | prepared
  | partly
  | missing
deriving DecidableEq

/-- One member's entry in a day's document (source `StandupRow`).
`overriddenBy` uses `""` for absent. -/
structure StandupRow where
  userId : String
  name : String
  yesterday : String
  today : String
  blockers : String
  status : StandupStatus
  overriddenBy : String
deriving DecidableEq

/-- One manager-override log entry (source `StandupDoc.overrides`
element).  `reason` uses `""` for absent; the source field `at` is
`atTime` here (`at` is reserved). -/
structure StandupOverride where
  atTime : String
  byUserId : String
  userId : String
  status : StandupStatus
  reason : String
deriving DecidableEq

/-- The per-(team, date) standup document (source `StandupDoc`). -/
structure StandupDoc where
  teamId : String
  date : String
  version : Nat
  updatedAt : String
  rows : List StandupRow
  overrides : List StandupOverride
deriving DecidableEq

/-! Section: Key space (source key helpers) -/

/-- Root of the blob key space (source constant `'standup/v1'`). -/
def keyRoot : String := "standup/v1"

/-- Source `usersKey`. -/
def usersKey (userId : String) : String := keyRoot ++ "/users/" ++ userId ++ ".json"

/-- Source `teamKey`. -/
def teamKey (teamId : String) : String := keyRoot ++ "/teams/" ++ teamId ++ ".json"

/-- Source `standupKey`. -/
def standupKey (teamId date : String) : String :=
  keyRoot ++ "/standups/" ++ teamId ++ "/" ++ date ++ ".json"

/-- Source `teamByEmailKey`; the `encodeURIComponent` step is omitted
(it is injective on the e-mail strings this development quantifies
over, so only the key's spelling differs). -/
def teamByEmailKey (email : String) : String :=
  keyRoot ++ "/email/" ++ email.toLower ++ ".json"

/-! Section: Blob storage model -/

/-- Lookup in an association list keyed by full key strings: models
`findBlob(key)` followed by reading the blob's JSON. -/
def lookupKV {α : Type} : List (String × α) → String → Option α
  | [], _ => none
  | (k, v) :: rest, key => if k = key then some v else lookupKV rest key

/-- Overwrite-or-append: models `putJson(key, doc)` (full-document
overwrite at a key). -/
def putKV {α : Type} : List (String × α) → String → α → List (String × α)
  | [], key, v => [(key, v)]
  | (k, w) :: rest, key, v =>
      if k = key then (key, v) :: rest else (k, w) :: putKV rest key v

/-- The blob store restricted to the document kinds the claims touch,
split by key prefix (the prefixes are disjoint in the source key
scheme). -/
structure Store where
  users : List (String × User)
  teams : List (String × Team)
  standups : List (String × StandupDoc)
  emailMap : List (String × String)
deriving DecidableEq

@[simp] theorem lookupKV_nil {α : Type} (key : String) :
    lookupKV ([] : List (String × α)) key = none := rfl

@[simp] theorem lookupKV_cons {α : Type} (k : String) (v : α) (rest : List (String × α))
    (key : String) :
    lookupKV ((k, v) :: rest) key = if k = key then some v else lookupKV rest key := rfl

@[simp] theorem putKV_nil {α : Type} (key : String) (v : α) :
    putKV ([] : List (String × α)) key v = [(key, v)] := rfl

@[simp] theorem putKV_cons {α : Type} (k : String) (w : α) (rest : List (String × α))
    (key : String) (v : α) :
    putKV ((k, w) :: rest) key v =
      if k = key then (key, v) :: rest else (k, w) :: putKV rest key v := rfl

theorem lookupKV_putKV_self {α : Type} (l : List (String × α)) (key : String) (v : α) :
    lookupKV (putKV l key v) key = some v := by
  induction l with
  | nil => simp
  | cons p rest ih =>
    obtain ⟨k, w⟩ := p
    by_cases h : k = key <;> simp [h, ih]

theorem lookupKV_putKV_other {α : Type} (l : List (String × α)) (key key2 : String) (v : α)
    (h : key ≠ key2) : lookupKV (putKV l key v) key2 = lookupKV l key2 := by
  induction l with
  | nil => simp [h]
  | cons p rest ih =>
    obtain ⟨k, w⟩ := p
    by_cases hk : k = key
    · subst hk
      simp [h]
    · by_cases hk2 : k = key2 <;> simp [hk, hk2, Ne.symm h, ih]

/-! Section: Status calculator (source `calcStatus`) -/

/-- JS whitespace test used by `String.prototype.trim`: tab, LF, VT, FF,
CR, space, NBSP and the BOM (the common WhiteSpace/LineTerminator code
points). -/
def jsIsSpace (c : Char) : Bool :=
  [9, 10, 11, 12, 13, 32, 160, 65279].contains c.toNat

/-- JS `s.trim()`: drop leading and trailing whitespace. -/
def jsTrim (s : String) : String :=
  ⟨((s.data.dropWhile jsIsSpace).reverse.dropWhile jsIsSpace).reverse⟩

/-- Source `calcStatus`: trim the three fields, count the non-empty ones
(JS `filter(Boolean)` keeps exactly the non-empty strings), and map the
count to a status. -/
def calcStatus (y t b : String) : StandupStatus :=
  let filled := ([jsTrim y, jsTrim t, jsTrim b].filter (fun s => s != "")).length
  if filled = 0 then .missing
  else if filled = 3 then .prepared
  else .partly

/-- C4: the status calculator trims each string, counts the non-empty
results, and yields `missing` for 0, `prepared` for 3, `partly`
(source 'partial') for 1 or 2; it is total with exactly three possible
values, and its result depends only on which of the three trimmed
strings are non-empty. -/
theorem claim_C4_calcStatus_spec (y t b y2 t2 b2 : String) :
    (calcStatus y t b = .missing ∨ calcStatus y t b = .partly ∨
      calcStatus y t b = .prepared)
    ∧ (calcStatus y t b = .missing ↔ (jsTrim y = "" ∧ jsTrim t = "" ∧ jsTrim b = ""))
    ∧ (calcStatus y t b = .prepared ↔ (jsTrim y ≠ "" ∧ jsTrim t ≠ "" ∧ jsTrim b ≠ ""))
    ∧ ((jsTrim y = "" ↔ jsTrim y2 = "") → (jsTrim t = "" ↔ jsTrim t2 = "") →
        (jsTrim b = "" ↔ jsTrim b2 = "") → calcStatus y t b = calcStatus y2 t2 b2)
    ∧ calcStatus "" "" "" = .missing
    ∧ calcStatus "x" "" "" = .partly
    ∧ calcStatus "x" "y" "None" = .prepared := by
  refine ⟨?_, ?_, ?_, ?_, by decide, by decide, by decide⟩
  · by_cases hy : jsTrim y = "" <;> by_cases ht : jsTrim t = "" <;>
      by_cases hb : jsTrim b = "" <;> simp [calcStatus, hy, ht, hb]
  · by_cases hy : jsTrim y = "" <;> by_cases ht : jsTrim t = "" <;>
      by_cases hb : jsTrim b = "" <;> simp [calcStatus, hy, ht, hb]
  · by_cases hy : jsTrim y = "" <;> by_cases ht : jsTrim t = "" <;>
      by_cases hb : jsTrim b = "" <;> simp [calcStatus, hy, ht, hb]
  · intro h1 h2 h3
    by_cases hy : jsTrim y = "" <;> by_cases ht : jsTrim t = "" <;>
      by_cases hb : jsTrim b = "" <;>
      simp [calcStatus, hy, ht, hb, h1.mp, h1.mpr, h2.mp, h2.mpr, h3.mp, h3.mpr] <;>
      simp_all [calcStatus]

/-- Witness for C4 at concrete strings. -/
theorem claim_C4_calcStatus_spec_witness :
    calcStatus " a " "b" "" = calcStatus "a" "c" "" :=
  (claim_C4_calcStatus_spec " a " "b" "" "a" "c" "").2.2.2.1
    (by decide) (by decide) (by decide)

/-! Section: User normalization and role helpers (source `normalizeUser`,
`getRoleForTeam`) -/

/-- Source `normalizeUser`: keep memberships whose `teamId` is truthy
(dropping the undefined case), migrate the legacy scalar `teamId`/`role`
pair into a membership when the list came out empty, and pick
`activeTeamId` as the first truthy of `activeTeamId`, legacy `teamId`,
first membership's team.  `now` stands for the `nowIso()` call inside. -/
def normalizeUser (now : String) (raw : User) : User :=
  let memberships := (raw.memberships.getD []).filter (fun m => m.teamId != "")
  let memberships :=
    if memberships.isEmpty ∧ raw.teamId ≠ "" then
      memberships ++ [{ teamId := raw.teamId, role := raw.role.getD .member,
                        joinedAt := jsOrStr raw.createdAt now }]
    else memberships
  let activeTeamId :=
    jsOrStr raw.activeTeamId (jsOrStr raw.teamId (((memberships.head?).map
      (fun m => m.teamId)).getD ""))
  { raw with memberships := some memberships, activeTeamId := activeTeamId }

/-- Source `getRoleForTeam`: the membership's role for that team, else
the legacy global role, else `member`. -/
def getRoleForTeam (now : String) (user : User) (teamId : String) : UserRole :=
  let u := normalizeUser now user
  match (u.memberships.getD []).find? (fun m => m.teamId = teamId) with
  | some m => m.role
  | none => u.role.getD .member

/-! Section: JS `Number(string)` model

`updateStandupEntry` coerces the `If-Match` header with `Number(...)` and
enables the version check only when `Number.isFinite` holds.  The model
below follows the ECMAScript StringNumericLiteral grammar: trimmed empty
string is 0, `Infinity` forms are non-finite (`none`), unsigned
hex/octal/binary literals, and signed decimal literals with optional
fraction and exponent.  Exact rationals stand in for IEEE doubles (the
doubles' rounding and overflow-to-infinity are not modelled; the version
counters compared against are small integers, where the two agree). -/

/-- Decimal digit value. -/
def decDigit (c : Char) : Option Nat :=
  if '0' ≤ c ∧ c ≤ '9' then some (c.toNat - '0'.toNat) else none

/-- Hexadecimal digit value. -/
def hexDigit (c : Char) : Option Nat :=
  if '0' ≤ c ∧ c ≤ '9' then some (c.toNat - '0'.toNat)
  else if 'a' ≤ c ∧ c ≤ 'f' then some (c.toNat - 'a'.toNat + 10)
  else if 'A' ≤ c ∧ c ≤ 'F' then some (c.toNat - 'A'.toNat + 10)
  else none

/-- Octal digit value. -/
def octDigit (c : Char) : Option Nat :=
  if '0' ≤ c ∧ c ≤ '7' then some (c.toNat - '0'.toNat) else none

/-- Binary digit value. -/
def binDigit (c : Char) : Option Nat :=
  if c = '0' then some 0 else if c = '1' then some 1 else none

/-- Accumulating digit fold in a given base; fails on a non-digit. -/
def natOfDigitsAux (dv : Char → Option Nat) (base : Nat) : Nat → List Char → Option Nat
  | acc, [] => some acc
  | acc, c :: cs =>
    match dv c with
    | some d => natOfDigitsAux dv base (acc * base + d) cs
    | none => none

/-- A non-empty all-digit string in a given base. -/
def natOfDigits (dv : Char → Option Nat) (base : Nat) : List Char → Option Nat
  | [] => none
  | c :: cs => natOfDigitsAux dv base 0 (c :: cs)

/-- Split at the first character satisfying `p`: left part, and the rest
after the separator when one occurs. -/
def splitAtChar (p : Char → Bool) : List Char → List Char × Option (List Char)
  | [] => ([], none)
  | c :: rest =>
    if p c then ([], some rest)
    else
      let r := splitAtChar p rest
      (c :: r.1, r.2)

/-- Unsigned decimal mantissa: digits, optionally with a decimal point
(digits required on at least one side, as in JS where `"1."` and `".5"`
are numbers but `"."` is not). -/
def parseDecMantissa (cs : List Char) : Option ℚ :=
  let s := splitAtChar (fun c => c = '.') cs
  match s.2 with
  | none => (natOfDigits decDigit 10 s.1).map (fun n => (n : ℚ))
  | some fp =>
    match s.1, fp with
    | [], [] => none
    | [], _ => (natOfDigits decDigit 10 fp).map
        (fun n => (n : ℚ) / (10 : ℚ) ^ fp.length)
    | ip, [] => (natOfDigits decDigit 10 ip).map (fun n => (n : ℚ))
    | ip, _ =>
      match natOfDigits decDigit 10 ip, natOfDigits decDigit 10 fp with
      | some a, some f => some ((a : ℚ) + (f : ℚ) / (10 : ℚ) ^ fp.length)
      | _, _ => none

/-- Optionally signed decimal exponent. -/
def parseSignedNat : List Char → Option ℤ
  | '+' :: rest => (natOfDigits decDigit 10 rest).map Int.ofNat
  | '-' :: rest => (natOfDigits decDigit 10 rest).map (fun n => -(n : ℤ))
  | cs => (natOfDigits decDigit 10 cs).map Int.ofNat

/-- Unsigned decimal literal with optional exponent part. -/
def parseDec (cs : List Char) : Option ℚ :=
  let s := splitAtChar (fun c => c = 'e' ∨ c = 'E') cs
  match s.2 with
  | none => parseDecMantissa s.1
  | some ec =>
    match parseDecMantissa s.1, parseSignedNat ec with
    | some q, some ex => some (q * (10 : ℚ) ^ ex)
    | _, _ => none

/-- Signless numeric body: `Infinity` is non-finite, otherwise a decimal
literal. -/
def jsStrSignless (cs : List Char) : Option ℚ :=
  if cs = "Infinity".data then none else parseDec cs

/-- A trimmed, non-empty numeric string: non-decimal radix literals take
no sign, decimal literals and `Infinity` take an optional sign. -/
def jsStrNum : List Char → Option ℚ
  | '0' :: 'x' :: rest => (natOfDigits hexDigit 16 rest).map (fun n => (n : ℚ))
  | '0' :: 'X' :: rest => (natOfDigits hexDigit 16 rest).map (fun n => (n : ℚ))
  | '0' :: 'o' :: rest => (natOfDigits octDigit 8 rest).map (fun n => (n : ℚ))
  | '0' :: 'O' :: rest => (natOfDigits octDigit 8 rest).map (fun n => (n : ℚ))
  | '0' :: 'b' :: rest => (natOfDigits binDigit 2 rest).map (fun n => (n : ℚ))
  | '0' :: 'B' :: rest => (natOfDigits binDigit 2 rest).map (fun n => (n : ℚ))
  | '+' :: rest => jsStrSignless rest
  | '-' :: rest => (jsStrSignless rest).map (fun q => -q)
  | cs => jsStrSignless cs

/-- JS `Number(s)` restricted to finite outcomes: `some q` when the
string coerces to the finite number `q` (the empty or all-whitespace
string coerces to 0), `none` when it coerces to `NaN` or `±Infinity`,
i.e. exactly when the source's `Number.isFinite(Number(s))` guard is
false. -/
def jsToNumber (s : String) : Option ℚ :=
  let t := jsTrim s
  if t = "" then some 0 else jsStrNum t.data

/-! Section: Store operations (source `getTeam`, `upsertUser`, `createTeam`,
`getOrCreateStandup`, `updateStandupEntry`, `ensureTeamForViewer`) -/

/-- Configuration read from the environment by the source. `""` stands
for an unset variable (falsy in the `||` chains). -/
structure Env where
  bootstrapTeamName : String
  defaultStandupCutoff : String
deriving DecidableEq

/-- Source `getTeam`: `findBlob(teamKey(teamId))` + read. -/
def getTeam (st : Store) (teamId : String) : Option Team :=
  lookupKV st.teams (teamKey teamId)

/-- The user record `upsertUser` writes (source `upsertUser` before its
two `putJson` calls): normalize, stamp `updatedAt`, then sync the legacy
scalar `teamId`/`role` fields from the active team. -/
def upsertedUser (now : String) (user : User) : User :=
  let u0 := normalizeUser now user
  let u1 := { u0 with updatedAt := now }
  let u2 := { u1 with teamId := u1.activeTeamId }
  { u2 with role := some (getRoleForTeam now u2 u2.activeTeamId) }

/-- Source `upsertUser`: write the prepared user blob and the
e-mail→user mapping. -/
def upsertUser (now : String) (st : Store) (user : User) : Store :=
  let u := upsertedUser now user
  { st with
      users := putKV st.users (usersKey u.id) u,
      emailMap := putKV st.emailMap (teamByEmailKey u.email) u.id }

/-- The team record `createTeam` builds (the `nanoid()` calls are the
`freshTeamId`/`freshCode` parameters). -/
def mkTeam (env : Env) (now freshTeamId freshCode : String)
    (name standupCutoffTime createdByUserId : String) : Team :=
  { id := freshTeamId,
    name := jsTrim name,
    standupCutoffTime := jsTrim (jsOrStr standupCutoffTime
      (jsOrStr env.defaultStandupCutoff "09:30")),
    memberUserIds := [createdByUserId],
    createdByUserId := createdByUserId,
    teamCode := freshCode,
    createdAt := now,
    updatedAt := now }

/-- Source `createTeam`: build the team and persist it. -/
def createTeam (env : Env) (now freshTeamId freshCode : String) (st : Store)
    (name standupCutoffTime createdByUserId : String) : Team × Store :=
  let team := mkTeam env now freshTeamId freshCode name standupCutoffTime
    createdByUserId
  (team, { st with teams := putKV st.teams (teamKey freshTeamId) team })

/-- A freshly synthesized row for a user (empty fields, status
`missing`), as built in both branches of `getOrCreateStandup`. -/
def freshRow (u : User) : StandupRow :=
  { userId := u.id, name := u.name, yesterday := "", today := "",
    blockers := "", status := .missing, overriddenBy := "" }

/-- The `new Map(data.rows.map(r => [r.userId, r]))` lookup of the
reconciliation branch: JS `Map` construction keeps the last entry per
key, so this is the last stored row with the given user id. -/
def lastRowFor (rows : List StandupRow) (uid : String) : Option StandupRow :=
  (rows.filter (fun r => r.userId = uid)).getLast?

/-- One iteration of the creation loop of `getOrCreateStandup`: a fresh
row when the member's user blob exists, nothing otherwise (`continue`). -/
def createRow (st : Store) (uid : String) : Option StandupRow :=
  (lookupKV st.users (usersKey uid)).map freshRow

/-- One iteration of the reconciliation loop of `getOrCreateStandup`:
keep the stored row for this member when one exists, else synthesize a
fresh row when the member's user blob exists, else nothing. -/
def reconRow (st : Store) (d : StandupDoc) (uid : String) : Option StandupRow :=
  match lastRowFor d.rows uid with
  | some r => some r
  | none => createRow st uid

/-- The version-0 document built by the creation branch of
`getOrCreateStandup`. -/
def freshDoc (now : String) (st : Store) (team : Team) (date : String) : StandupDoc :=
  { teamId := team.id, date := date, version := 0, updatedAt := now,
    rows := team.memberUserIds.filterMap (createRow st), overrides := [] }

/-- Source `getOrCreateStandup`.  When no document is stored at the
(team, date) key: build a version-0 document with one fresh row per team
member that has a user blob, persist it, and return it with etag
`String(version)`.  When one is stored: rebuild the row set from the
team's current member list — keep the stored row when present, else a
fresh row when the member's user blob exists, else no row — and return
it (without writing) with etag `String(version)`. -/
def getOrCreateStandup (now : String) (st : Store) (team : Team) (date : String) :
    (StandupDoc × String) × Store :=
  let key := standupKey team.id date
  match lookupKV st.standups key with
  | none =>
    let doc := freshDoc now st team date
    ((doc, toString doc.version), { st with standups := putKV st.standups key doc })
  | some data =>
    let rows := team.memberUserIds.filterMap (reconRow st data)
    (({ data with rows := rows }, toString data.version), st)

/-- Replace the element at an index (source `doc.rows[idx] = ...`). -/
def modifyAt {α : Type} : List α → Nat → (α → α) → List α
  | [], _, _ => []
  | x :: xs, 0, f => f x :: xs
  | x :: xs, Nat.succ i, f => x :: modifyAt xs i f

/-- The row overwrite of `updateStandupEntry` step 5: replace the three
text fields and recompute the status; other fields are spread through. -/
def editedRow (y t b : String) (r : StandupRow) : StandupRow :=
  { r with yesterday := y, today := t, blockers := b,
           status := calcStatus y t b }

/-- The error outcomes `updateStandupEntry` can throw: `Forbidden`
(status 403), 'User not on team' (`BadRequest`, status 400), and
`Conflict` (status 409). -/
inductive UpdateError where
  | forbidden
  | userNotOnTeam
  | conflict
deriving DecidableEq

/-- Decidable equality of `Except` results, so concrete runs can be
checked by evaluation. -/
instance exceptDecEq {ε α : Type} [DecidableEq ε] [DecidableEq α] :
    DecidableEq (Except ε α) := fun x y =>
  match x, y with
  | .error a, .error b =>
    if h : a = b then isTrue (by rw [h])
    else isFalse (fun he => by injection he with h2; exact h h2)
  | .error _, .ok _ => isFalse (fun he => Except.noConfusion he)
  | .ok _, .error _ => isFalse (fun he => Except.noConfusion he)
  | .ok a, .ok b =>
    if h : a = b then isTrue (by rw [h])
    else isFalse (fun he => by injection he with h2; exact h h2)

/-- The soft concurrency check of `updateStandupEntry` (source lines
`const ifMatchVersion = Number(opts.ifMatch); if
(Number.isFinite(ifMatchVersion) && ifMatchVersion !== doc.version)`):
true exactly when the token coerces to a finite number different from
the document version. -/
def tokenMismatch (ifMatch : String) (version : Nat) : Bool :=
  match jsToNumber ifMatch with
  | some q => decide (q ≠ (version : ℚ))
  | none => false

/-- Source `updateStandupEntry`: authorization first (manager or own
row), then load-or-create the document, locate the target row, overwrite
its fields and recompute its status, soft-check the `If-Match` token
against `doc.version` (only when `Number(ifMatch)` is finite), and on
success bump the version, stamp `updatedAt`, persist, and return the new
etag.  The returned store reflects every write performed before a throw
(in particular the creation by `getOrCreateStandup`). -/
def updateStandupEntry (now : String) (st : Store) (team : Team)
    (date viewerUserId : String) (viewerRole : UserRole)
    (userId yesterday today blockers ifMatch : String) :
    Except UpdateError (StandupDoc × String) × Store :=
  if viewerRole ≠ .manager ∧ viewerUserId ≠ userId then
    (.error .forbidden, st)
  else
    let r0 := getOrCreateStandup now st team date
    let doc := r0.1.1
    let st1 := r0.2
    match doc.rows.findIdx? (fun r => r.userId = userId) with
    | none => (.error .userNotOnTeam, st1)
    | some idx =>
      let doc := { doc with
        rows := modifyAt doc.rows idx (editedRow yesterday today blockers) }
      if tokenMismatch ifMatch doc.version then
        (.error .conflict, st1)
      else
        let doc := { doc with version := doc.version + 1, updatedAt := now }
        (.ok (doc, toString doc.version),
          { st1 with standups := putKV st1.standups (standupKey team.id date) doc })

/-- The viewer descriptor `ensureTeamForViewer` receives (a session
user). -/
structure Viewer where
  id : String
  teamId : String
  role : Option UserRole
  activeTeamId : String
deriving DecidableEq

/-- Source `ensureTeamForViewer`: return the viewer's referenced team
when it exists; else load the user blob (absent → no team); else return
the user's own active team when that exists; else repair by creating a
brand-new team, pointing the user's legacy fields, active team and
entire membership list at it, and persisting the user. -/
def ensureTeamForViewer (env : Env) (now freshTeamId freshCode : String)
    (st : Store) (viewer : Viewer) : Option Team × Store :=
  if viewer.id = "" then (none, st)
  else
    let teamId := jsOrStr viewer.activeTeamId viewer.teamId
    match (if teamId ≠ "" then getTeam st teamId else none) with
    | some existing => (some existing, st)
    | none =>
      match lookupKV st.users (usersKey viewer.id) with
      | none => (none, st)
      | some raw =>
        let user := normalizeUser now raw
        match (if user.activeTeamId ≠ "" then getTeam st user.activeTeamId
               else none) with
        | some existingForUser => (some existingForUser, st)
        | none =>
          let rep := createTeam env now freshTeamId freshCode st
            (jsOrStr env.bootstrapTeamName "Engineering")
            (jsOrStr env.defaultStandupCutoff "09:30") user.id
          let repaired := rep.1
          let st1 := rep.2
          let role : UserRole :=
            if viewer.role = some .manager then .manager
            else getRoleForTeam now user (jsOrStr user.activeTeamId user.teamId)
          let u := normalizeUser now user
          let u := { u with
            activeTeamId := repaired.id,
            teamId := repaired.id,
            role := some role,
            memberships := some [{ teamId := repaired.id, role := role,
                                   joinedAt := now }] }
          (some repaired, upsertUser now st1 u)

/-! Section: Helper lemmas -/

theorem string_affix_inj (p q a b : String) (h : p ++ a ++ q = p ++ b ++ q) :
    a = b := by
  have hd : p.data ++ (a.data ++ q.data) = p.data ++ (b.data ++ q.data) := by
    have := congrArg String.data h
    simpa [String.data_append, List.append_assoc] using this
  have h3 : a.data = b.data :=
    List.append_cancel_right (List.append_cancel_left hd)
  cases a
  cases b
  exact congrArg String.mk h3

theorem usersKey_inj {a b : String} (h : usersKey a = usersKey b) : a = b :=
  string_affix_inj (keyRoot ++ "/users/") ".json" a b
    (by simpa [usersKey, String.append_assoc] using h)

theorem teamKey_inj {a b : String} (h : teamKey a = teamKey b) : a = b :=
  string_affix_inj (keyRoot ++ "/teams/") ".json" a b
    (by simpa [teamKey, String.append_assoc] using h)

theorem lookupKV_mem {α : Type} {l : List (String × α)} {key : String} {v : α}
    (h : lookupKV l key = some v) : (key, v) ∈ l := by
  induction l with
  | nil => simp at h
  | cons p rest ih =>
    obtain ⟨k, w⟩ := p
    by_cases hk : k = key
    · subst hk
      simp at h
      subst h
      exact List.mem_cons_self _ _
    · simp [hk] at h
      exact List.mem_cons_of_mem _ (ih h)

theorem lastRowFor_mem {rows : List StandupRow} {uid : String} {r : StandupRow}
    (h : lastRowFor rows uid = some r) :
    r ∈ rows.filter (fun x => decide (x.userId = uid)) := by
  have hx : r ∈ (rows.filter (fun x => decide (x.userId = uid))).getLast? :=
    Option.mem_def.mpr h
  obtain ⟨hne, heq⟩ := List.mem_getLast?_eq_getLast hx
  exact heq ▸ List.getLast_mem hne

theorem lastRowFor_userId {rows : List StandupRow} {uid : String} {r : StandupRow}
    (h : lastRowFor rows uid = some r) : r.userId = uid := by
  have := (List.mem_filter.mp (lastRowFor_mem h)).2
  simpa using this

/-- When the per-element function tags its output with the input, mapping
the tag over `filterMap` recovers `filter isSome`. -/
theorem filterMap_map_userId {f : String → Option StandupRow}
    (hf : ∀ uid r, f uid = some r → r.userId = uid) (l : List String) :
    (l.filterMap f).map (fun r => r.userId) =
      l.filter (fun uid => (f uid).isSome) := by
  induction l with
  | nil => simp
  | cons x xs ih =>
    cases hx : f x with
    | none => simp [List.filterMap_cons, hx, ih]
    | some r => simp [List.filterMap_cons, hx, ih, hf x r hx]

/-- The reconciliation branch of `getOrCreateStandup` spelled out. -/
theorem getOrCreateStandup_of_stored (now : String) (st : Store) (team : Team)
    (date : String) (d : StandupDoc)
    (h : lookupKV st.standups (standupKey team.id date) = some d) :
    getOrCreateStandup now st team date =
      (({ d with rows := team.memberUserIds.filterMap (reconRow st d) },
        toString d.version), st) := by
  simp [getOrCreateStandup, h]

/-- The creation branch of `getOrCreateStandup` spelled out. -/
theorem getOrCreateStandup_of_absent (now : String) (st : Store) (team : Team)
    (date : String)
    (h : lookupKV st.standups (standupKey team.id date) = none) :
    getOrCreateStandup now st team date =
      ((freshDoc now st team date, toString (0 : Nat)),
        { st with standups := putKV st.standups (standupKey team.id date) (freshDoc now st team date) }) := by
  simp [getOrCreateStandup, h, freshDoc]

theorem updateStandupEntry_forbidden (now : String) (st : Store) (team : Team)
    (date viewerUserId : String) (viewerRole : UserRole)
    (userId y t b tok : String)
    (h : viewerRole ≠ .manager ∧ viewerUserId ≠ userId) :
    updateStandupEntry now st team date viewerUserId viewerRole userId y t b tok =
      (.error .forbidden, st) := by
  simp [updateStandupEntry, h]

theorem updateStandupEntry_noRow (now : String) (st : Store) (team : Team)
    (date viewerUserId : String) (viewerRole : UserRole)
    (userId y t b tok : String)
    (hauth : ¬(viewerRole ≠ .manager ∧ viewerUserId ≠ userId))
    (hfind : ((getOrCreateStandup now st team date).1.1).rows.findIdx?
        (fun r => r.userId = userId) = none) :
    updateStandupEntry now st team date viewerUserId viewerRole userId y t b tok =
      (.error .userNotOnTeam, (getOrCreateStandup now st team date).2) := by
  simp [updateStandupEntry, hauth, hfind]

theorem updateStandupEntry_conflict (now : String) (st : Store) (team : Team)
    (date viewerUserId : String) (viewerRole : UserRole)
    (userId y t b tok : String) (idx : Nat)
    (hauth : ¬(viewerRole ≠ .manager ∧ viewerUserId ≠ userId))
    (hfind : ((getOrCreateStandup now st team date).1.1).rows.findIdx?
        (fun r => r.userId = userId) = some idx)
    (htok : tokenMismatch tok ((getOrCreateStandup now st team date).1.1).version
        = true) :
    updateStandupEntry now st team date viewerUserId viewerRole userId y t b tok =
      (.error .conflict, (getOrCreateStandup now st team date).2) := by
  simp [updateStandupEntry, hauth, hfind, htok]

/-- The document a successful `updateStandupEntry` persists and returns:
the reconciled document with the target row edited, the version bumped
and the timestamp refreshed. -/
def successDoc (now : String) (st : Store) (team : Team) (date : String)
    (idx : Nat) (y t b : String) : StandupDoc :=
  { (getOrCreateStandup now st team date).1.1 with
      rows := modifyAt ((getOrCreateStandup now st team date).1.1).rows idx
        (editedRow y t b),
      version := ((getOrCreateStandup now st team date).1.1).version + 1,
      updatedAt := now }

theorem updateStandupEntry_success (now : String) (st : Store) (team : Team)
    (date viewerUserId : String) (viewerRole : UserRole)
    (userId y t b tok : String) (idx : Nat)
    (hauth : ¬(viewerRole ≠ .manager ∧ viewerUserId ≠ userId))
    (hfind : ((getOrCreateStandup now st team date).1.1).rows.findIdx?
        (fun r => r.userId = userId) = some idx)
    (htok : tokenMismatch tok ((getOrCreateStandup now st team date).1.1).version
        = false) :
    updateStandupEntry now st team date viewerUserId viewerRole userId y t b tok =
      (.ok (successDoc now st team date idx y t b,
            toString (((getOrCreateStandup now st team date).1.1).version + 1)),
        { (getOrCreateStandup now st team date).2 with
            standups := putKV ((getOrCreateStandup now st team date).2).standups
              (standupKey team.id date) (successDoc now st team date idx y t b) }) := by
  simp [updateStandupEntry, hauth, hfind, htok, successDoc]

/-! Section: Concrete sample data (used by the claim witnesses and
counterexamples) -/

/-- A manager user. -/
def aliceU : User :=
  { id := "alice", email := "alice@example.com", name := "Alice",
    teamId := "t1", role := some .manager,
    memberships := some [{ teamId := "t1", role := .manager,
                           joinedAt := "2024-01-01T00:00:00Z" }],
    activeTeamId := "t1", createdAt := "2024-01-01T00:00:00Z",
    updatedAt := "2024-01-01T00:00:00Z" }

/-- A plain member user. -/
def bobU : User :=
  { id := "bob", email := "bob@example.com", name := "Bob",
    teamId := "t1", role := some .member,
    memberships := some [{ teamId := "t1", role := .member,
                           joinedAt := "2024-01-02T00:00:00Z" }],
    activeTeamId := "t1", createdAt := "2024-01-02T00:00:00Z",
    updatedAt := "2024-01-02T00:00:00Z" }

/-- The sample team with members alice and bob. -/
def team1 : Team :=
  { id := "t1", name := "Engineering", standupCutoffTime := "09:30",
    memberUserIds := ["alice", "bob"], createdByUserId := "alice",
    teamCode := "code42code", createdAt := "2024-01-01T00:00:00Z",
    updatedAt := "2024-01-01T00:00:00Z" }

/-- Store with the team and its two users but no standup documents. -/
def store0 : Store :=
  { users := [(usersKey "alice", aliceU), (usersKey "bob", bobU)],
    teams := [(teamKey "t1", team1)], standups := [], emailMap := [] }

/-- Alice's filled-in row of the sample document. -/
def aliceRow1 : StandupRow :=
  { userId := "alice", name := "Alice", yesterday := "shipped X",
    today := "ship Y", blockers := "None", status := .prepared,
    overriddenBy := "" }

/-- A stored sample document at version 1. -/
def doc1 : StandupDoc :=
  { teamId := "t1", date := "2024-01-15", version := 1,
    updatedAt := "2024-01-15T08:00:00Z", rows := [aliceRow1, freshRow bobU],
    overrides := [] }

/-- Store with the version-1 document for (t1, 2024-01-15). -/
def store1 : Store :=
  { store0 with standups := [(standupKey "t1" "2024-01-15", doc1)] }

/-- A user whose referenced team is missing from storage. -/
def carolU : User :=
  { id := "carol", email := "carol@example.com", name := "Carol",
    teamId := "gone", role := some .member,
    memberships := some [{ teamId := "gone", role := .member,
                           joinedAt := "2024-01-03T00:00:00Z" }],
    activeTeamId := "gone", createdAt := "2024-01-03T00:00:00Z",
    updatedAt := "2024-01-03T00:00:00Z" }

/-- Store holding only carol, with her team blob missing. -/
def storeC : Store :=
  { users := [(usersKey "carol", carolU)], teams := [], standups := [],
    emailMap := [] }

/-- Carol's session descriptor. -/
def carolViewer : Viewer :=
  { id := "carol", teamId := "gone", role := some .member,
    activeTeamId := "gone" }

/-- Environment with no overrides set. -/
def envD : Env := { bootstrapTeamName := "", defaultStandupCutoff := "" }

/-! Section: Claims -/

/-- C8: when a document already exists for (team, date),
`getOrCreateStandup` performs no write — the store comes back unchanged —
and both the returned document's version and the returned concurrency
token equal the stored version: membership reconciliation is a read-time
view that never advances the version. -/
theorem claim_C8_reconciliation_read_only (now : String) (st : Store)
    (team : Team) (date : String) (d : StandupDoc)
    (h : lookupKV st.standups (standupKey team.id date) = some d) :
    (getOrCreateStandup now st team date).2 = st
    ∧ ((getOrCreateStandup now st team date).1.1).version = d.version
    ∧ (getOrCreateStandup now st team date).1.2 = toString d.version := by
  rw [getOrCreateStandup_of_stored now st team date d h]
  exact ⟨rfl, rfl, rfl⟩

/-- Witness for C8 on the stored version-1 sample document. -/
theorem claim_C8_reconciliation_read_only_witness :
    (getOrCreateStandup "2024-01-15T08:05:00Z" store1 team1 "2024-01-15").2 = store1
    ∧ ((getOrCreateStandup "2024-01-15T08:05:00Z" store1 team1 "2024-01-15").1.1).version
        = doc1.version
    ∧ (getOrCreateStandup "2024-01-15T08:05:00Z" store1 team1 "2024-01-15").1.2
        = toString doc1.version :=
  claim_C8_reconciliation_read_only "2024-01-15T08:05:00Z" store1 team1
    "2024-01-15" doc1 (by decide)

/-- C5: a non-manager whose id differs from the target row's user id is
rejected with `Forbidden` before anything else happens (for any token
and any document state, with the store untouched); conversely a manager,
or a user editing their own row, never fails the authorization check. -/
theorem claim_C5_authorization (now : String) (st : Store) (team : Team)
    (date viewerUserId : String) (viewerRole : UserRole)
    (userId y t b tok : String) :
    (viewerRole ≠ .manager ∧ viewerUserId ≠ userId →
      updateStandupEntry now st team date viewerUserId viewerRole userId y t b tok
        = (.error .forbidden, st))
    ∧ ((viewerRole = .manager ∨ viewerUserId = userId) →
      (updateStandupEntry now st team date viewerUserId viewerRole userId y t b tok).1
        ≠ .error .forbidden) := by
  constructor
  · intro h
    exact updateStandupEntry_forbidden now st team date viewerUserId viewerRole
      userId y t b tok h
  · intro h
    have hcond : ¬(viewerRole ≠ .manager ∧ viewerUserId ≠ userId) := by tauto
    rcases hfind : ((getOrCreateStandup now st team date).1.1).rows.findIdx?
        (fun r => r.userId = userId) with _ | idx
    · rw [updateStandupEntry_noRow now st team date viewerUserId viewerRole
        userId y t b tok hcond hfind]
      simp
    · cases htok : tokenMismatch tok ((getOrCreateStandup now st team date).1.1).version
      · rw [updateStandupEntry_success now st team date viewerUserId viewerRole
          userId y t b tok idx hcond hfind htok]
        simp
      · rw [updateStandupEntry_conflict now st team date viewerUserId viewerRole
          userId y t b tok idx hcond hfind htok]
        simp

/-- Witness for C5: bob (member) editing alice's row is Forbidden; alice
(manager) editing bob's row is not. -/
theorem claim_C5_authorization_witness :
    updateStandupEntry "2024-01-15T08:10:00Z" store1 team1 "2024-01-15" "bob"
        UserRole.member "alice" "y" "t" "b" "1" = (.error .forbidden, store1)
    ∧ (updateStandupEntry "2024-01-15T08:10:00Z" store1 team1 "2024-01-15" "alice"
        UserRole.manager "bob" "y" "t" "b" "1").1 ≠ .error .forbidden :=
  ⟨(claim_C5_authorization "2024-01-15T08:10:00Z" store1 team1 "2024-01-15" "bob"
      UserRole.member "alice" "y" "t" "b" "1").1 (by decide),
   (claim_C5_authorization "2024-01-15T08:10:00Z" store1 team1 "2024-01-15" "alice"
      UserRole.manager "bob" "y" "t" "b" "1").2 (Or.inl rfl)⟩

/-- C2: on success (authorized caller, target row present, token check
passing), the version is incremented by one, the timestamp refreshed to
the operation time, the whole document persisted at its key, and the
returned token is the new version rendered as a string. -/
theorem claim_C2_success_contract (now : String) (st : Store) (team : Team)
    (date viewerUserId : String) (viewerRole : UserRole)
    (userId y t b tok : String) (idx : Nat)
    (hauth : viewerRole = .manager ∨ viewerUserId = userId)
    (hfind : ((getOrCreateStandup now st team date).1.1).rows.findIdx?
        (fun r => r.userId = userId) = some idx)
    (htok : tokenMismatch tok ((getOrCreateStandup now st team date).1.1).version
        = false) :
    ∃ doc2,
      (updateStandupEntry now st team date viewerUserId viewerRole userId y t b tok).1
          = .ok (doc2, toString doc2.version)
      ∧ doc2.version = ((getOrCreateStandup now st team date).1.1).version + 1
      ∧ doc2.updatedAt = now
      ∧ lookupKV ((updateStandupEntry now st team date viewerUserId viewerRole
            userId y t b tok).2).standups (standupKey team.id date) = some doc2 := by
  have hcond : ¬(viewerRole ≠ .manager ∧ viewerUserId ≠ userId) := by tauto
  have hs := updateStandupEntry_success now st team date viewerUserId viewerRole
    userId y t b tok idx hcond hfind htok
  refine ⟨successDoc now st team date idx y t b, ?_, ?_, ?_, ?_⟩
  · rw [hs]
    simp [successDoc]
  · simp [successDoc]
  · simp [successDoc]
  · rw [hs]
    exact lookupKV_putKV_self _ _ _

/-- Witness for C2: alice updates bob's row on the stored version-1
document with token "1". -/
theorem claim_C2_success_contract_witness :
    ∃ doc2,
      (updateStandupEntry "2024-01-15T08:10:00Z" store1 team1 "2024-01-15" "alice"
          UserRole.manager "bob" "did" "do" "none" "1").1
          = .ok (doc2, toString doc2.version)
      ∧ doc2.version
          = ((getOrCreateStandup "2024-01-15T08:10:00Z" store1 team1 "2024-01-15").1.1).version + 1
      ∧ doc2.updatedAt = "2024-01-15T08:10:00Z"
      ∧ lookupKV ((updateStandupEntry "2024-01-15T08:10:00Z" store1 team1 "2024-01-15"
            "alice" UserRole.manager "bob" "did" "do" "none" "1").2).standups
          (standupKey team1.id "2024-01-15") = some doc2 :=
  claim_C2_success_contract "2024-01-15T08:10:00Z" store1 team1 "2024-01-15"
    "alice" UserRole.manager "bob" "did" "do" "none" "1" 1
    (Or.inl rfl) (by decide) (by decide)

/-- C1: against a stored document at version V, an authorized update of
an existing row whose token is numeric and differs from V fails with
`Conflict` and leaves the store exactly as it was (the in-memory row
mutation is not persisted); consequently, when update A succeeds first
on a document both callers read at version V, update B presenting token
V afterwards fails with `Conflict` and changes nothing. -/
theorem claim_C1_stale_numeric_token_conflicts :
    (∀ (now : String) (st : Store) (team : Team) (date : String) (d : StandupDoc)
        (viewerUserId : String) (viewerRole : UserRole)
        (userId y t b tok : String) (q : ℚ),
      lookupKV st.standups (standupKey team.id date) = some d →
      (viewerRole = .manager ∨ viewerUserId = userId) →
      (((getOrCreateStandup now st team date).1.1).rows.findIdx?
          (fun r => r.userId = userId)).isSome →
      jsToNumber tok = some q → q ≠ (d.version : ℚ) →
      updateStandupEntry now st team date viewerUserId viewerRole userId y t b tok
        = (.error .conflict, st))
    ∧ (∀ (now now2 : String) (st : Store) (team : Team) (date : String)
        (d : StandupDoc) (vA : String) (roleA : UserRole)
        (uidA yA tA bA tokA : String) (docA : StandupDoc) (etagA : String)
        (stA : Store) (vB : String) (roleB : UserRole)
        (uidB yB tB bB tokB : String),
      lookupKV st.standups (standupKey team.id date) = some d →
      updateStandupEntry now st team date vA roleA uidA yA tA bA tokA
        = (.ok (docA, etagA), stA) →
      (roleB = .manager ∨ vB = uidB) →
      (((getOrCreateStandup now2 stA team date).1.1).rows.findIdx?
          (fun r => r.userId = uidB)).isSome →
      jsToNumber tokB = some (d.version : ℚ) →
      updateStandupEntry now2 stA team date vB roleB uidB yB tB bB tokB
        = (.error .conflict, stA)) := by
  have part1 : ∀ (now : String) (st : Store) (team : Team) (date : String)
      (d : StandupDoc) (viewerUserId : String) (viewerRole : UserRole)
      (userId y t b tok : String) (q : ℚ),
      lookupKV st.standups (standupKey team.id date) = some d →
      (viewerRole = .manager ∨ viewerUserId = userId) →
      (((getOrCreateStandup now st team date).1.1).rows.findIdx?
          (fun r => r.userId = userId)).isSome →
      jsToNumber tok = some q → q ≠ (d.version : ℚ) →
      updateStandupEntry now st team date viewerUserId viewerRole userId y t b tok
        = (.error .conflict, st) := by
    intro now st team date d vuid vrole uid y t b tok q hd hauth hrow htokq hne
    have hcond : ¬(vrole ≠ .manager ∧ vuid ≠ uid) := by tauto
    obtain ⟨idx, hidx⟩ := Option.isSome_iff_exists.mp hrow
    have hg := getOrCreateStandup_of_stored now st team date d hd
    have hver : ((getOrCreateStandup now st team date).1.1).version = d.version := by
      rw [hg]
    have htok : tokenMismatch tok ((getOrCreateStandup now st team date).1.1).version
        = true := by
      rw [hver]
      simp [tokenMismatch, htokq, hne]
    rw [updateStandupEntry_conflict now st team date vuid vrole uid y t b tok idx
      hcond hidx htok, hg]
  refine ⟨part1, ?_⟩
  intro now now2 st team date d vA roleA uidA yA tA bA tokA docA etagA stA
    vB roleB uidB yB tB bB tokB hd hA hauthB hrowB htokB
  -- Invert A's successful call to learn the store it left behind.
  by_cases hcondA : roleA ≠ .manager ∧ vA ≠ uidA
  · rw [updateStandupEntry_forbidden now st team date vA roleA uidA yA tA bA tokA
      hcondA] at hA
    simp at hA
  · rcases hfindA : ((getOrCreateStandup now st team date).1.1).rows.findIdx?
        (fun r => r.userId = uidA) with _ | idxA
    · rw [updateStandupEntry_noRow now st team date vA roleA uidA yA tA bA tokA
        hcondA hfindA] at hA
      simp at hA
    · cases htokA : tokenMismatch tokA ((getOrCreateStandup now st team date).1.1).version
      · rw [updateStandupEntry_success now st team date vA roleA uidA yA tA bA tokA
          idxA hcondA hfindA htokA] at hA
        have hg := getOrCreateStandup_of_stored now st team date d hd
        have hstA : stA = { (getOrCreateStandup now st team date).2 with
            standups := putKV ((getOrCreateStandup now st team date).2).standups
              (standupKey team.id date) (successDoc now st team date idxA yA tA bA) } := by
          have := congrArg Prod.snd hA
          simpa using this.symm
        have hstored : lookupKV stA.standups (standupKey team.id date)
            = some (successDoc now st team date idxA yA tA bA) := by
          rw [hstA]
          exact lookupKV_putKV_self _ _ _
        have hverA : (successDoc now st team date idxA yA tA bA).version
            = d.version + 1 := by
          simp [successDoc]
          rw [hg]
        have hne : (d.version : ℚ)
            ≠ ((successDoc now st team date idxA yA tA bA).version : ℚ) := by
          rw [hverA]
          exact_mod_cast Nat.ne_of_lt (Nat.lt_succ_self _)
        exact part1 now2 stA team date (successDoc now st team date idxA yA tA bA)
          vB roleB uidB yB tB bB tokB (d.version : ℚ) hstored hauthB hrowB htokB hne
      · rw [updateStandupEntry_conflict now st team date vA roleA uidA yA tA bA tokA
          idxA hcondA hfindA htokA] at hA
        simp at hA

/-- The document A's successful update leaves behind in the C1 witness
scenario (alice edited her own row at token "1"). -/
def docA2 : StandupDoc :=
  { teamId := "t1", date := "2024-01-15", version := 2,
    updatedAt := "2024-01-15T08:10:00Z",
    rows := [{ userId := "alice", name := "Alice", yesterday := "a",
               today := "b", blockers := "c", status := .prepared,
               overriddenBy := "" }, freshRow bobU],
    overrides := [] }

/-- The store A's successful update leaves behind in the C1 witness
scenario. -/
def stA2 : Store :=
  { store1 with standups := [(standupKey "t1" "2024-01-15", docA2)] }

/-- Witness for C1: alice's stale token "0" conflicts against version 1;
and after alice commits (version 2), bob's token "1" conflicts. -/
theorem claim_C1_stale_numeric_token_conflicts_witness :
    updateStandupEntry "2024-01-15T08:10:00Z" store1 team1 "2024-01-15" "alice"
        UserRole.manager "bob" "y" "t" "b" "0" = (.error .conflict, store1)
    ∧ updateStandupEntry "2024-01-15T08:12:00Z" stA2 team1 "2024-01-15" "bob"
        UserRole.member "bob" "y" "t" "b" "1" = (.error .conflict, stA2) :=
  ⟨claim_C1_stale_numeric_token_conflicts.1 "2024-01-15T08:10:00Z" store1 team1
      "2024-01-15" doc1 "alice" UserRole.manager "bob" "y" "t" "b" "0" 0
      (by decide) (Or.inl rfl) (by decide) (by decide) (by decide),
   claim_C1_stale_numeric_token_conflicts.2 "2024-01-15T08:10:00Z"
      "2024-01-15T08:12:00Z" store1 team1 "2024-01-15" doc1 "alice"
      UserRole.manager "alice" "a" "b" "c" "1" docA2 "2" stA2 "bob"
      UserRole.member "bob" "y" "t" "b" "1"
      (by decide) (by decide) (Or.inr rfl) (by decide) (by decide)⟩

/-- C6 counterexample: the claim says a missing (empty) token disables
the conflict check so the update succeeds regardless of the current
version.  But `Number('')` is 0, which is finite: against the stored
version-1 document, alice's authorized edit of her own existing row with
the empty token is rejected with `Conflict`. -/
theorem claim_C6_counterexample :
    jsToNumber "" = some 0
    ∧ (updateStandupEntry "2024-01-15T08:10:00Z" store1 team1 "2024-01-15"
        "alice" UserRole.manager "alice" "a" "b" "c" "").1 = .error .conflict := by
  decide

/-- C6 amended: a token that does not coerce to a finite number disables
the conflict check — the update succeeds regardless of the document's
current version (authorization passing, target row present) — but the
empty token is not such a token: it coerces to 0 and is checked against
the version. -/
theorem claim_C6_non_numeric_token_disables_check :
    (∀ (now : String) (st : Store) (team : Team) (date viewerUserId : String)
        (viewerRole : UserRole) (userId y t b tok : String) (idx : Nat),
      (viewerRole = .manager ∨ viewerUserId = userId) →
      ((getOrCreateStandup now st team date).1.1).rows.findIdx?
          (fun r => r.userId = userId) = some idx →
      jsToNumber tok = none →
      ∃ doc2,
        (updateStandupEntry now st team date viewerUserId viewerRole userId
            y t b tok).1 = .ok (doc2, toString doc2.version))
    ∧ (∀ v : Nat, tokenMismatch "" v = decide ((0 : ℚ) ≠ (v : ℚ))) := by
  constructor
  · intro now st team date vuid vrole uid y t b tok idx hauth hfind htokNone
    have hcond : ¬(vrole ≠ .manager ∧ vuid ≠ uid) := by tauto
    have htok : tokenMismatch tok ((getOrCreateStandup now st team date).1.1).version
        = false := by
      simp [tokenMismatch, htokNone]
    refine ⟨successDoc now st team date idx y t b, ?_⟩
    rw [updateStandupEntry_success now st team date vuid vrole uid y t b tok idx
      hcond hfind htok]
    simp [successDoc]
  · intro v
    rfl

/-- Witness for amended C6: a non-numeric token "abc" succeeds against
the version-1 document, and the empty token behaves as the number 0. -/
theorem claim_C6_non_numeric_token_disables_check_witness :
    (∃ doc2,
      (updateStandupEntry "2024-01-15T08:10:00Z" store1 team1 "2024-01-15"
          "alice" UserRole.manager "alice" "a" "b" "c" "abc").1
        = .ok (doc2, toString doc2.version))
    ∧ tokenMismatch "" 1 = decide ((0 : ℚ) ≠ ((1 : Nat) : ℚ)) :=
  ⟨claim_C6_non_numeric_token_disables_check.1 "2024-01-15T08:10:00Z" store1
      team1 "2024-01-15" "alice" UserRole.manager "alice" "a" "b" "c" "abc" 0
      (Or.inl rfl) (by decide) (by decide),
   claim_C6_non_numeric_token_disables_check.2 1⟩

/-- C7 counterexample: the claim says a failing update leaves the
storage for the (team, date) key unchanged, "including the absence of a
document that did not previously exist".  But the load step persists a
fresh document before the row lookup and token check: with no stored
document, a call failing `BadRequest` (target not on the team) leaves a
newly created document behind. -/
theorem claim_C7_counterexample :
    lookupKV store0.standups (standupKey "t1" "2024-01-15") = none
    ∧ (updateStandupEntry "2024-01-15T08:10:00Z" store0 team1 "2024-01-15"
        "alice" UserRole.manager "carol" "y" "t" "b" "0").1
        = .error .userNotOnTeam
    ∧ (lookupKV ((updateStandupEntry "2024-01-15T08:10:00Z" store0 team1
          "2024-01-15" "alice" UserRole.manager "carol" "y" "t" "b" "0").2).standups
        (standupKey "t1" "2024-01-15")).isSome = true := by
  decide

/-- C7 amended: a failed update never persists the row mutation.  On
`Forbidden` the store is entirely untouched; on `BadRequest`/`Conflict`
the store is exactly what the load step produced — unchanged when a
document was already stored, and otherwise holding only the freshly
created, unmutated version-0 document. -/
theorem claim_C7_failed_updates_persist_nothing (now : String) (st : Store)
    (team : Team) (date viewerUserId : String) (viewerRole : UserRole)
    (userId y t b tok : String) :
    ((updateStandupEntry now st team date viewerUserId viewerRole userId
        y t b tok).1 = .error .forbidden →
      (updateStandupEntry now st team date viewerUserId viewerRole userId
        y t b tok).2 = st)
    ∧ (∀ d, lookupKV st.standups (standupKey team.id date) = some d →
        ∀ e, (updateStandupEntry now st team date viewerUserId viewerRole userId
            y t b tok).1 = .error e →
          (updateStandupEntry now st team date viewerUserId viewerRole userId
            y t b tok).2 = st)
    ∧ (lookupKV st.standups (standupKey team.id date) = none →
        ∀ e, (updateStandupEntry now st team date viewerUserId viewerRole userId
            y t b tok).1 = .error e → e ≠ .forbidden →
          (updateStandupEntry now st team date viewerUserId viewerRole userId
              y t b tok).2
            = { st with standups := putKV st.standups (standupKey team.id date) (freshDoc now st team date) }
          ∧ (freshDoc now st team date).version = 0) := by
  by_cases hcond : viewerRole ≠ .manager ∧ viewerUserId ≠ userId
  · rw [updateStandupEntry_forbidden now st team date viewerUserId viewerRole
      userId y t b tok hcond]
    refine ⟨fun _ => rfl, fun d hd e he => rfl, fun habs e he hne => absurd ?_ hne⟩
    simpa using he.symm
  · rcases hfind : ((getOrCreateStandup now st team date).1.1).rows.findIdx?
        (fun r => r.userId = userId) with _ | idx
    · rw [updateStandupEntry_noRow now st team date viewerUserId viewerRole
        userId y t b tok hcond hfind]
      refine ⟨fun he => by simp at he, fun d hd e he => ?_, fun habs e he hne => ?_⟩
      · rw [getOrCreateStandup_of_stored now st team date d hd]
      · rw [getOrCreateStandup_of_absent now st team date habs]
        exact ⟨rfl, rfl⟩
    · cases htok : tokenMismatch tok ((getOrCreateStandup now st team date).1.1).version
      · rw [updateStandupEntry_success now st team date viewerUserId viewerRole
          userId y t b tok idx hcond hfind htok]
        exact ⟨fun he => by simp at he, fun d hd e he => by simp at he,
          fun habs e he hne => by simp at he⟩
      · rw [updateStandupEntry_conflict now st team date viewerUserId viewerRole
          userId y t b tok idx hcond hfind htok]
        refine ⟨fun he => by simp at he, fun d hd e he => ?_, fun habs e he hne => ?_⟩
        · rw [getOrCreateStandup_of_stored now st team date d hd]
        · rw [getOrCreateStandup_of_absent now st team date habs]
          exact ⟨rfl, rfl⟩

/-- Witness for amended C7: the Forbidden case on the empty-document
store, the Conflict case on the stored version-1 document, and the
BadRequest case on the empty-document store. -/
theorem claim_C7_failed_updates_persist_nothing_witness :
    (updateStandupEntry "2024-01-15T08:10:00Z" store0 team1 "2024-01-15" "bob"
        UserRole.member "alice" "y" "t" "b" "1").2 = store0
    ∧ (updateStandupEntry "2024-01-15T08:10:00Z" store1 team1 "2024-01-15"
        "alice" UserRole.manager "bob" "y" "t" "b" "0").2 = store1
    ∧ ((updateStandupEntry "2024-01-15T08:10:00Z" store0 team1 "2024-01-15"
          "alice" UserRole.manager "carol" "y" "t" "b" "0").2
        = { store0 with standups := putKV store0.standups (standupKey team1.id "2024-01-15") (freshDoc "2024-01-15T08:10:00Z" store0 team1 "2024-01-15") }
      ∧ (freshDoc "2024-01-15T08:10:00Z" store0 team1 "2024-01-15").version = 0) :=
  ⟨(claim_C7_failed_updates_persist_nothing "2024-01-15T08:10:00Z" store0 team1
      "2024-01-15" "bob" UserRole.member "alice" "y" "t" "b" "1").1 (by decide),
   (claim_C7_failed_updates_persist_nothing "2024-01-15T08:10:00Z" store1 team1
      "2024-01-15" "alice" UserRole.manager "bob" "y" "t" "b" "0").2.1 doc1
      (by decide) .conflict (by decide),
   (claim_C7_failed_updates_persist_nothing "2024-01-15T08:10:00Z" store0 team1
      "2024-01-15" "alice" UserRole.manager "carol" "y" "t" "b" "0").2.2
      (by decide) .userNotOnTeam (by decide) (by decide)⟩

/-! Section: Row reconciliation (C3) -/

/-- The user blobs are stored under the key derived from their own id
(every write path in the source stores a user at `usersKey(u.id)`). -/
def usersConsistent (st : Store) : Prop :=
  ∀ p ∈ st.users, p.1 = usersKey p.2.id

instance (st : Store) : Decidable (usersConsistent st) := by
  unfold usersConsistent
  infer_instance

/-- The stored document for (team, date) has a row for this member. -/
def hasStoredRow (st : Store) (team : Team) (date uid : String) : Prop :=
  ∃ d, lookupKV st.standups (standupKey team.id date) = some d
    ∧ (lastRowFor d.rows uid).isSome

theorem lookup_user_id (st : Store) (hu : usersConsistent st) {uid : String}
    {u : User} (h : lookupKV st.users (usersKey uid) = some u) : u.id = uid :=
  usersKey_inj (hu _ (lookupKV_mem h)).symm

theorem createRow_userId (st : Store) (hu : usersConsistent st) {uid : String}
    {r : StandupRow} (h : createRow st uid = some r) : r.userId = uid := by
  rcases hl : lookupKV st.users (usersKey uid) with _ | u
  · simp [createRow, hl] at h
  · have : r = freshRow u := by
      simp [createRow, hl] at h
      exact h.symm
    rw [this]
    exact lookup_user_id st hu hl

theorem reconRow_userId (st : Store) (d : StandupDoc) (hu : usersConsistent st)
    {uid : String} {r : StandupRow} (h : reconRow st d uid = some r) :
    r.userId = uid := by
  rcases hl : lastRowFor d.rows uid with _ | r0
  · rw [reconRow, hl] at h
    exact createRow_userId st hu h
  · rw [reconRow, hl] at h
    cases h
    exact lastRowFor_userId hl

theorem createRow_isSome (st : Store) (uid : String) :
    (createRow st uid).isSome = (lookupKV st.users (usersKey uid)).isSome := by
  simp [createRow]

theorem reconRow_isSome (st : Store) (d : StandupDoc) (uid : String) :
    (reconRow st d uid).isSome
      = ((lastRowFor d.rows uid).isSome || (lookupKV st.users (usersKey uid)).isSome) := by
  rcases hl : lastRowFor d.rows uid with _ | r0 <;> simp [reconRow, hl, createRow]

/-- C3: the rows `getOrCreateStandup` returns are exactly one row per
current team member that has either a stored row or a user record — the
stored row is kept with its prior field values when present, a fresh
empty `missing` row is synthesized from the user record otherwise, a
member with neither silently produces no row, and ids not in the member
list produce no row; when no document was stored, the same
initialization builds a version-0 document that is persisted. -/
theorem claim_C3_rows_follow_membership (now : String) (st : Store) (team : Team)
    (date : String) (hu : usersConsistent st) (hnd : team.memberUserIds.Nodup) :
    (((getOrCreateStandup now st team date).1.1).rows.map (fun r => r.userId)).Nodup
    ∧ (∀ uid,
        uid ∈ ((getOrCreateStandup now st team date).1.1).rows.map (fun r => r.userId)
          ↔ uid ∈ team.memberUserIds
            ∧ (hasStoredRow st team date uid
               ∨ (lookupKV st.users (usersKey uid)).isSome))
    ∧ (∀ d, lookupKV st.standups (standupKey team.id date) = some d →
        ∀ uid r, uid ∈ team.memberUserIds → lastRowFor d.rows uid = some r →
          r ∈ ((getOrCreateStandup now st team date).1.1).rows)
    ∧ (∀ uid u, uid ∈ team.memberUserIds → ¬ hasStoredRow st team date uid →
        lookupKV st.users (usersKey uid) = some u →
          freshRow u ∈ ((getOrCreateStandup now st team date).1.1).rows)
    ∧ (lookupKV st.standups (standupKey team.id date) = none →
        ((getOrCreateStandup now st team date).1.1).version = 0
        ∧ lookupKV ((getOrCreateStandup now st team date).2).standups
            (standupKey team.id date) = some ((getOrCreateStandup now st team date).1.1)) := by
  rcases hdoc : lookupKV st.standups (standupKey team.id date) with _ | d
  · -- creation branch
    rw [getOrCreateStandup_of_absent now st team date hdoc]
    have hmap := filterMap_map_userId (fun uid r h => createRow_userId st hu h)
      team.memberUserIds
    have hnos : ∀ uid, ¬ hasStoredRow st team date uid := by
      intro uid hex
      rcases hex with ⟨d, hd, _⟩
      rw [hdoc] at hd
      exact Option.noConfusion hd
    refine ⟨?_, ?_, ?_, ?_, ?_⟩
    · show ((team.memberUserIds.filterMap (createRow st)).map (fun r => r.userId)).Nodup
      rw [hmap]
      exact hnd.filter _
    · intro uid
      show uid ∈ (team.memberUserIds.filterMap (createRow st)).map (fun r => r.userId) ↔ _
      rw [hmap]
      simp only [List.mem_filter, createRow_isSome]
      constructor
      · rintro ⟨h1, h2⟩
        exact ⟨h1, Or.inr h2⟩
      · rintro ⟨h1, h2 | h2⟩
        · exact absurd h2 (hnos uid)
        · exact ⟨h1, h2⟩
    · intro d hd
      exact Option.noConfusion hd
    · intro uid u hmem _ hl
      show freshRow u ∈ team.memberUserIds.filterMap (createRow st)
      exact List.mem_filterMap.mpr ⟨uid, hmem, by simp [createRow, hl]⟩
    · intro _
      exact ⟨rfl, lookupKV_putKV_self _ _ _⟩
  · -- reconciliation branch
    rw [getOrCreateStandup_of_stored now st team date d hdoc]
    have hmap := filterMap_map_userId (fun uid r h => reconRow_userId st d hu h)
      team.memberUserIds
    have hstored : ∀ uid, hasStoredRow st team date uid ↔ (lastRowFor d.rows uid).isSome := by
      intro uid
      constructor
      · rintro ⟨d2, hd2, hs⟩
        rw [hdoc] at hd2
        injection hd2 with h2
        subst h2
        exact hs
      · intro hs
        exact ⟨d, hdoc, hs⟩
    refine ⟨?_, ?_, ?_, ?_, ?_⟩
    · show ((team.memberUserIds.filterMap (reconRow st d)).map (fun r => r.userId)).Nodup
      rw [hmap]
      exact hnd.filter _
    · intro uid
      show uid ∈ (team.memberUserIds.filterMap (reconRow st d)).map (fun r => r.userId) ↔ _
      rw [hmap]
      simp only [List.mem_filter, reconRow_isSome, hstored, Bool.or_eq_true]
    · intro d2 hd2 uid r hmem hlast
      injection hd2 with h2
      subst h2
      show r ∈ team.memberUserIds.filterMap (reconRow st d)
      exact List.mem_filterMap.mpr ⟨uid, hmem, by rw [reconRow, hlast]⟩
    · intro uid u hmem hno hl
      have hlast : lastRowFor d.rows uid = none := by
        rcases hl2 : lastRowFor d.rows uid with _ | r0
        · rfl
        · exact absurd ((hstored uid).mpr (by simp [hl2])) hno
      show freshRow u ∈ team.memberUserIds.filterMap (reconRow st d)
      exact List.mem_filterMap.mpr ⟨uid, hmem, by rw [reconRow, hlast]; simp [createRow, hl]⟩
    · intro habs
      exact Option.noConfusion habs

/-- Witness for C3 on the stored version-1 sample document. -/
theorem claim_C3_rows_follow_membership_witness :
    (((getOrCreateStandup "2024-01-15T08:05:00Z" store1 team1 "2024-01-15").1.1).rows.map
        (fun r => r.userId)).Nodup
    ∧ (∀ uid,
        uid ∈ ((getOrCreateStandup "2024-01-15T08:05:00Z" store1 team1 "2024-01-15").1.1).rows.map
            (fun r => r.userId)
          ↔ uid ∈ team1.memberUserIds
            ∧ (hasStoredRow store1 team1 "2024-01-15" uid
               ∨ (lookupKV store1.users (usersKey uid)).isSome))
    ∧ (∀ d, lookupKV store1.standups (standupKey team1.id "2024-01-15") = some d →
        ∀ uid r, uid ∈ team1.memberUserIds → lastRowFor d.rows uid = some r →
          r ∈ ((getOrCreateStandup "2024-01-15T08:05:00Z" store1 team1 "2024-01-15").1.1).rows)
    ∧ (∀ uid u, uid ∈ team1.memberUserIds → ¬ hasStoredRow store1 team1 "2024-01-15" uid →
        lookupKV store1.users (usersKey uid) = some u →
          freshRow u ∈ ((getOrCreateStandup "2024-01-15T08:05:00Z" store1 team1 "2024-01-15").1.1).rows)
    ∧ (lookupKV store1.standups (standupKey team1.id "2024-01-15") = none →
        ((getOrCreateStandup "2024-01-15T08:05:00Z" store1 team1 "2024-01-15").1.1).version = 0
        ∧ lookupKV ((getOrCreateStandup "2024-01-15T08:05:00Z" store1 team1 "2024-01-15").2).standups
            (standupKey team1.id "2024-01-15")
          = some ((getOrCreateStandup "2024-01-15T08:05:00Z" store1 team1 "2024-01-15").1.1)) :=
  claim_C3_rows_follow_membership "2024-01-15T08:05:00Z" store1 team1 "2024-01-15"
    (by decide) (by decide)

/-! Section: Team self-healing (C9, C10) -/

/-- The team the repair branch of `ensureTeamForViewer` creates. -/
def repairTeamOf (env : Env) (now fid fcode : String) (raw : User) : Team :=
  mkTeam env now fid fcode (jsOrStr env.bootstrapTeamName "Engineering")
    (jsOrStr env.defaultStandupCutoff "09:30") (normalizeUser now raw).id

/-- The role the repair branch assigns: keep manager when the session
says so, else the role the user held on their (dangling) team. -/
def repairRoleOf (now : String) (viewer : Viewer) (raw : User) : UserRole :=
  if viewer.role = some .manager then .manager
  else getRoleForTeam now (normalizeUser now raw)
    (jsOrStr (normalizeUser now raw).activeTeamId (normalizeUser now raw).teamId)

/-- The user record the repair branch hands to `upsertUser`: everything
repointed at the repaired team, the membership list replaced by the
single new membership. -/
def repairUserOf (now fid : String) (viewer : Viewer) (raw : User) : User :=
  { normalizeUser now (normalizeUser now raw) with
      activeTeamId := fid, teamId := fid,
      role := some (repairRoleOf now viewer raw),
      memberships := some [{ teamId := fid, role := repairRoleOf now viewer raw,
                             joinedAt := now }] }

/-- The repair branch of `ensureTeamForViewer` spelled out. -/
theorem ensureTeamForViewer_repair (env : Env) (now fid fcode : String)
    (st : Store) (viewer : Viewer) (raw : User)
    (hid : viewer.id ≠ "")
    (hmiss : (if jsOrStr viewer.activeTeamId viewer.teamId ≠ "" then
        getTeam st (jsOrStr viewer.activeTeamId viewer.teamId) else none) = none)
    (hraw : lookupKV st.users (usersKey viewer.id) = some raw)
    (humiss : (if (normalizeUser now raw).activeTeamId ≠ "" then
        getTeam st (normalizeUser now raw).activeTeamId else none) = none) :
    ensureTeamForViewer env now fid fcode st viewer
      = (some (repairTeamOf env now fid fcode raw),
         upsertUser now
           { st with teams := putKV st.teams (teamKey fid) (repairTeamOf env now fid fcode raw) }
           (repairUserOf now fid viewer raw)) := by
  unfold ensureTeamForViewer
  rw [if_neg hid]
  simp only [hmiss, hraw, humiss, createTeam, repairTeamOf, repairRoleOf,
    repairUserOf, mkTeam]

theorem upsertUser_teams (now : String) (st : Store) (u : User) :
    (upsertUser now st u).teams = st.teams := rfl

theorem upsertUser_users (now : String) (st : Store) (u : User) :
    (upsertUser now st u).users
      = putKV st.users (usersKey (upsertedUser now u).id) (upsertedUser now u) := rfl

theorem normalizeUser_id (now : String) (u : User) :
    (normalizeUser now u).id = u.id := rfl

theorem upsertedUser_id (now : String) (u : User) :
    (upsertedUser now u).id = u.id := rfl

theorem normalizeUser_activeTeamId_of_ne (now : String) (u : User)
    (h : u.activeTeamId ≠ "") : (normalizeUser now u).activeTeamId = u.activeTeamId := by
  simp [normalizeUser, jsOrStr, h]

theorem upsertedUser_activeTeamId_of_ne (now : String) (u : User)
    (h : u.activeTeamId ≠ "") : (upsertedUser now u).activeTeamId = u.activeTeamId :=
  normalizeUser_activeTeamId_of_ne now u h

theorem upsertedUser_teamId (now : String) (u : User) :
    (upsertedUser now u).teamId = (normalizeUser now u).activeTeamId := rfl

theorem repairUserOf_id (now fid : String) (viewer : Viewer) (raw : User) :
    (repairUserOf now fid viewer raw).id = raw.id := rfl

theorem repairUserOf_activeTeamId (now fid : String) (viewer : Viewer) (raw : User) :
    (repairUserOf now fid viewer raw).activeTeamId = fid := rfl

theorem upsertedUser_memberships_repair (now2 now fid : String) (viewer : Viewer)
    (raw : User) (hfid : fid ≠ "") :
    (upsertedUser now2 (repairUserOf now fid viewer raw)).memberships
      = some [{ teamId := fid, role := repairRoleOf now viewer raw,
                joinedAt := now }] := by
  simp [upsertedUser, normalizeUser, repairUserOf, hfid]

theorem upsertedUser_activeTeamId_repair (now2 now fid : String) (viewer : Viewer)
    (raw : User) (hfid : fid ≠ "") :
    (upsertedUser now2 (repairUserOf now fid viewer raw)).activeTeamId = fid := by
  rw [upsertedUser_activeTeamId_of_ne now2 _ (by rw [repairUserOf_activeTeamId]; exact hfid)]
  exact repairUserOf_activeTeamId now fid viewer raw

/-- C9: `ensureTeamForViewer` is idempotent.  (a) When the viewer's
referenced team exists, it is returned unchanged with no writes.
(b) After a first call repaired a missing team, a second call returns
exactly the same team and performs no writes (the result pair of the
second call equals that of the first).  (c) When the user record itself
is missing, the call returns no team and writes nothing. -/
theorem claim_C9_ensure_team_idempotent :
    (∀ (env : Env) (now fid fcode : String) (st : Store) (viewer : Viewer)
        (t : Team),
      viewer.id ≠ "" →
      jsOrStr viewer.activeTeamId viewer.teamId ≠ "" →
      getTeam st (jsOrStr viewer.activeTeamId viewer.teamId) = some t →
      ensureTeamForViewer env now fid fcode st viewer = (some t, st))
    ∧ (∀ (env : Env) (now fid fcode : String) (st : Store) (viewer : Viewer)
        (raw : User),
      viewer.id ≠ "" →
      (if jsOrStr viewer.activeTeamId viewer.teamId ≠ "" then
          getTeam st (jsOrStr viewer.activeTeamId viewer.teamId) else none) = none →
      lookupKV st.users (usersKey viewer.id) = some raw →
      raw.id = viewer.id →
      (if (normalizeUser now raw).activeTeamId ≠ "" then
          getTeam st (normalizeUser now raw).activeTeamId else none) = none →
      fid ≠ "" →
      fid ≠ jsOrStr viewer.activeTeamId viewer.teamId →
      (ensureTeamForViewer env now fid fcode st viewer).1
          = some (repairTeamOf env now fid fcode raw)
      ∧ ∀ (env2 : Env) (now2 fid2 fcode2 : String),
          ensureTeamForViewer env2 now2 fid2 fcode2
              (ensureTeamForViewer env now fid fcode st viewer).2 viewer
            = ensureTeamForViewer env now fid fcode st viewer)
    ∧ (∀ (env : Env) (now fid fcode : String) (st : Store) (viewer : Viewer),
      viewer.id ≠ "" →
      (if jsOrStr viewer.activeTeamId viewer.teamId ≠ "" then
          getTeam st (jsOrStr viewer.activeTeamId viewer.teamId) else none) = none →
      lookupKV st.users (usersKey viewer.id) = none →
      ensureTeamForViewer env now fid fcode st viewer = (none, st)) := by
  refine ⟨?_, ?_, ?_⟩
  · intro env now fid fcode st viewer t hid htid hteam
    have hs : (if jsOrStr viewer.activeTeamId viewer.teamId ≠ "" then
        getTeam st (jsOrStr viewer.activeTeamId viewer.teamId) else none) = some t := by
      rw [if_pos htid, hteam]
    unfold ensureTeamForViewer
    rw [if_neg hid]
    simp only [hs]
  · intro env now fid fcode st viewer raw hid hmiss hraw hrawid humiss hfid hfne
    have hrep := ensureTeamForViewer_repair env now fid fcode st viewer raw hid
      hmiss hraw humiss
    refine ⟨by rw [hrep], ?_⟩
    intro env2 now2 fid2 fcode2
    rw [hrep]
    have h1 : (if jsOrStr viewer.activeTeamId viewer.teamId ≠ "" then
        getTeam (upsertUser now
          { st with teams := putKV st.teams (teamKey fid) (repairTeamOf env now fid fcode raw) }
          (repairUserOf now fid viewer raw))
          (jsOrStr viewer.activeTeamId viewer.teamId) else none) = none := by
      by_cases htid : jsOrStr viewer.activeTeamId viewer.teamId = ""
      · simp [htid]
      · rw [if_pos htid]
        show lookupKV _ (teamKey (jsOrStr viewer.activeTeamId viewer.teamId)) = none
        rw [upsertUser_teams]
        rw [lookupKV_putKV_other _ _ _ _ (fun h => hfne (teamKey_inj h))]
        have := hmiss
        rw [if_pos htid] at this
        exact this
    have hids : (upsertedUser now (repairUserOf now fid viewer raw)).id
        = viewer.id := by
      rw [upsertedUser_id, repairUserOf_id, hrawid]
    have h2 : lookupKV (upsertUser now
        { st with teams := putKV st.teams (teamKey fid) (repairTeamOf env now fid fcode raw) }
        (repairUserOf now fid viewer raw)).users (usersKey viewer.id)
        = some (upsertedUser now (repairUserOf now fid viewer raw)) := by
      rw [upsertUser_users, hids]
      exact lookupKV_putKV_self _ _ _
    have h3act : (normalizeUser now2
        (upsertedUser now (repairUserOf now fid viewer raw))).activeTeamId = fid := by
      rw [normalizeUser_activeTeamId_of_ne now2 _
        (by rw [upsertedUser_activeTeamId_repair now now fid viewer raw hfid]; exact hfid)]
      exact upsertedUser_activeTeamId_repair now now fid viewer raw hfid
    have h3team : getTeam (upsertUser now
        { st with teams := putKV st.teams (teamKey fid) (repairTeamOf env now fid fcode raw) }
        (repairUserOf now fid viewer raw)) fid
        = some (repairTeamOf env now fid fcode raw) := by
      show lookupKV _ (teamKey fid) = _
      rw [upsertUser_teams]
      exact lookupKV_putKV_self _ _ _
    have h3 : (if (normalizeUser now2
          (upsertedUser now (repairUserOf now fid viewer raw))).activeTeamId ≠ "" then
        getTeam (upsertUser now
          { st with teams := putKV st.teams (teamKey fid) (repairTeamOf env now fid fcode raw) }
          (repairUserOf now fid viewer raw))
          (normalizeUser now2
            (upsertedUser now (repairUserOf now fid viewer raw))).activeTeamId
        else none) = some (repairTeamOf env now fid fcode raw) := by
      rw [h3act, if_pos hfid, h3team]
    unfold ensureTeamForViewer
    rw [if_neg hid]
    simp only [h1, h2, h3]
  · intro env now fid fcode st viewer hid hmiss hnone
    unfold ensureTeamForViewer
    rw [if_neg hid]
    simp only [hmiss, hnone]

/-- Witness for C9: carol's dangling team is repaired on the first call;
the second call returns the same team with no further writes; a viewer
with no user record gets no team. -/
theorem claim_C9_ensure_team_idempotent_witness :
    ensureTeamForViewer envD "2024-02-01T00:00:00Z" "fresh1" "codeA" store0
        { id := "alice", teamId := "t1", role := some .manager, activeTeamId := "t1" }
      = (some team1, store0)
    ∧ (ensureTeamForViewer envD "2024-02-01T00:00:00Z" "fresh1" "codeA" storeC
          carolViewer).1
        = some (repairTeamOf envD "2024-02-01T00:00:00Z" "fresh1" "codeA" carolU)
    ∧ ensureTeamForViewer envD "2024-02-02T00:00:00Z" "fresh2" "codeB"
          (ensureTeamForViewer envD "2024-02-01T00:00:00Z" "fresh1" "codeA" storeC
            carolViewer).2 carolViewer
        = ensureTeamForViewer envD "2024-02-01T00:00:00Z" "fresh1" "codeA" storeC
            carolViewer
    ∧ ensureTeamForViewer envD "2024-02-01T00:00:00Z" "fresh1" "codeA" store0
          { id := "dave", teamId := "", role := none, activeTeamId := "" }
      = (none, store0) := by
  have hb := (claim_C9_ensure_team_idempotent.2.1 envD "2024-02-01T00:00:00Z"
    "fresh1" "codeA" storeC carolViewer carolU (by decide) (by decide) (by decide)
    (by decide) (by decide) (by decide) (by decide))
  exact ⟨claim_C9_ensure_team_idempotent.1 envD "2024-02-01T00:00:00Z" "fresh1"
      "codeA" store0 _ team1 (by decide) (by decide) (by decide),
    hb.1, hb.2 envD "2024-02-02T00:00:00Z" "fresh2" "codeB",
    claim_C9_ensure_team_idempotent.2.2 envD "2024-02-01T00:00:00Z" "fresh1"
      "codeA" store0 _ (by decide) (by decide) (by decide)⟩

/-- C10: the repair branch of `ensureTeamForViewer` replaces the user's
entire membership list: the persisted user record holds exactly one
membership — the repaired team — with the user's active team and legacy
team id repointed there; any prior memberships are gone. -/
theorem claim_C10_repair_replaces_memberships (env : Env)
    (now fid fcode : String) (st : Store) (viewer : Viewer) (raw : User)
    (hid : viewer.id ≠ "")
    (hmiss : (if jsOrStr viewer.activeTeamId viewer.teamId ≠ "" then
        getTeam st (jsOrStr viewer.activeTeamId viewer.teamId) else none) = none)
    (hraw : lookupKV st.users (usersKey viewer.id) = some raw)
    (hrawid : raw.id = viewer.id)
    (humiss : (if (normalizeUser now raw).activeTeamId ≠ "" then
        getTeam st (normalizeUser now raw).activeTeamId else none) = none)
    (hfid : fid ≠ "") :
    ∃ u3,
      lookupKV ((ensureTeamForViewer env now fid fcode st viewer).2).users
          (usersKey viewer.id) = some u3
      ∧ u3.memberships = some [{ teamId := fid, role := repairRoleOf now viewer raw, joinedAt := now }]
      ∧ (∀ m ∈ u3.memberships.getD [], m.teamId = fid)
      ∧ u3.activeTeamId = fid
      ∧ u3.teamId = fid
      ∧ (ensureTeamForViewer env now fid fcode st viewer).1
          = some (repairTeamOf env now fid fcode raw)
      ∧ (repairTeamOf env now fid fcode raw).id = fid := by
  have hrep := ensureTeamForViewer_repair env now fid fcode st viewer raw hid
    hmiss hraw humiss
  refine ⟨upsertedUser now (repairUserOf now fid viewer raw), ?_, ?_, ?_, ?_, ?_, ?_, rfl⟩
  · rw [hrep]
    have hids : (upsertedUser now (repairUserOf now fid viewer raw)).id
        = viewer.id := by
      rw [upsertedUser_id, repairUserOf_id, hrawid]
    rw [upsertUser_users, hids]
    exact lookupKV_putKV_self _ _ _
  · exact upsertedUser_memberships_repair now now fid viewer raw hfid
  · intro m hm
    rw [upsertedUser_memberships_repair now now fid viewer raw hfid] at hm
    simp at hm
    rw [hm]
  · exact upsertedUser_activeTeamId_repair now now fid viewer raw hfid
  · rw [upsertedUser_teamId]
    rw [normalizeUser_activeTeamId_of_ne now _
      (by rw [repairUserOf_activeTeamId]; exact hfid)]
    exact repairUserOf_activeTeamId now fid viewer raw
  · rw [hrep]

/-- Witness for C10 on carol's dangling-team store. -/
theorem claim_C10_repair_replaces_memberships_witness :
    ∃ u3,
      lookupKV ((ensureTeamForViewer envD "2024-02-01T00:00:00Z" "fresh1" "codeA"
          storeC carolViewer).2).users (usersKey "carol") = some u3
      ∧ u3.memberships = some [{ teamId := "fresh1", role := repairRoleOf "2024-02-01T00:00:00Z" carolViewer carolU, joinedAt := "2024-02-01T00:00:00Z" }]
      ∧ (∀ m ∈ u3.memberships.getD [], m.teamId = "fresh1")
      ∧ u3.activeTeamId = "fresh1"
      ∧ u3.teamId = "fresh1"
      ∧ (ensureTeamForViewer envD "2024-02-01T00:00:00Z" "fresh1" "codeA" storeC
          carolViewer).1
          = some (repairTeamOf envD "2024-02-01T00:00:00Z" "fresh1" "codeA" carolU)
      ∧ (repairTeamOf envD "2024-02-01T00:00:00Z" "fresh1" "codeA" carolU).id
          = "fresh1" :=
  claim_C10_repair_replaces_memberships envD "2024-02-01T00:00:00Z" "fresh1"
    "codeA" storeC carolViewer carolU (by decide) (by decide) (by decide)
    (by decide) (by decide) (by decide)

end Standup
